import Mathlib

/-
Verification of the cue/crossfade analyzer in src/main.rs.

The program measures the loudness profile of each playlist entry and derives
two timestamps per track: a cue-in point and a "seconds before end of file"
point at which the next track should start. The shallow embedding below
models f32 values as rationals, the sample vector as a list of
(time, momentary loudness) pairs, and the fallible analysis as Except.
The external ffmpeg invocation and its stderr parsing are the loudness
sampler collaborator; the analyzer receives the parsed sample list, the
integrated loudness and the duration, exactly the data the Rust code has in
hand when it reaches the algorithmic core (main.rs lines 108 onward).
-/

/-- Embedding of fn first_time_threshold (main.rs lines 42-56): iterate the
sample list, reversed when rev is set, and return the time of the first
sample whose momentary loudness strictly exceeds the threshold; 0 when no
sample exceeds it. -/
def first_time_threshold (measure : List (ℚ × ℚ)) (threshold : ℚ) (rev : Bool) : ℚ :=
  let iter := if rev then measure.reverse else measure
  match iter.find? (fun item => decide (threshold < item.2)) with
  | some item => item.1
  | none => 0

/-- Embedding of struct AnalyzeResult (main.rs lines 33-40). -/
structure AnalyzeResult where
  start_next : ℚ
  cue_point : ℚ
  duration : ℚ
  loudness : ℚ
  path : String
deriving Repr, DecidableEq

/-- The non-error branch of fn analyze (main.rs lines 126-166): cue level,
forward scan, 0.4 s window compensation, next level, backward scan, the
single long-tail correction, and the clamped start_next. -/
def analyzeResult (path : String) (measure : List (ℚ × ℚ))
    (loudness duration vol_drop vol_start : ℚ) : AnalyzeResult :=
  let cue_level := loudness - vol_start
  let ebu_cue_time := first_time_threshold measure cue_level false
  let cue_time := max 0 (ebu_cue_time - 2/5)
  let next_level := loudness - vol_drop
  let next_time := first_time_threshold measure next_level true
  let next_time2 :=
    if duration - next_time > 15 then
      first_time_threshold measure (loudness - vol_drop - 15) true
    else next_time
  let start_next := max (duration - next_time2) 0
  { start_next := start_next, cue_point := cue_time, duration := duration,
    loudness := loudness, path := path }

/-- Embedding of fn analyze (main.rs lines 58-167) from the point where the
sample list, integrated loudness and duration have been parsed out of the
sampler output: an empty sample list panics naming the path (line 112),
otherwise the analysis result is produced. -/
def analyze (path : String) (measure : List (ℚ × ℚ))
    (loudness duration vol_drop vol_start : ℚ) : Except String AnalyzeResult :=
  if measure = [] then
    Except.error ("Couldn\x27t measure filename: " ++ path)
  else
    Except.ok (analyzeResult path measure loudness duration vol_drop vol_start)

/-- Embedding of the playlist line filter in fn main (main.rs lines 194-200).
BufRead lines yields each line with its terminator already stripped; the
code keeps every line s with s != "#EXTM3U\n". -/
def playlist_lines (ls : List String) : List String :=
  ls.filter (fun s => s != "#EXTM3U\n")

/-- Three-digit zero padding for the fractional part of a formatted number. -/
def pad3 (n : Nat) : String :=
  if n < 10 then "00" ++ toString n
  else if n < 100 then "0" ++ toString n
  else toString n

/-- Embedding of Rust {:.3} fixed-point formatting on the rational model of
an f32 value: round to the nearest thousandth and print with exactly three
decimal digits. (An f32 is a dyadic rational, so it is never an exact
midpoint between two thousandths and the tie-breaking rule is immaterial.) -/
def fmt3 (q : ℚ) : String :=
  let n : ℤ := round (q * 1000)
  (if n < 0 then "-" else "") ++ toString (n.natAbs / 1000) ++ "." ++ pad3 (n.natAbs % 1000)

/-- Embedding of the annotate output line (main.rs lines 263-266). -/
def annotateLine (r : AnalyzeResult) : String :=
  "annotate:liq_cue_in=\"" ++ fmt3 r.cue_point ++ "\",liq_cross_duration=\"" ++
    fmt3 r.start_next ++ "\",duration=\"" ++ fmt3 r.duration ++ "\",liq_amplify=\"" ++
    fmt3 (-23 - r.loudness) ++ "dB\":" ++ r.path ++ "\n"

/-- Embedding of the output assembly (main.rs lines 256-268): the header is
pushed only when not appending, then one annotate line per result in order. -/
def resultString (append : Bool) (results : List AnalyzeResult) : String :=
  (if append then "" else "#EXTM3U\n") ++ String.join (results.map annotateLine)

-- Basic unfolding lemmas for the analyzer.

theorem analyze_ok (path : String) (measure : List (ℚ × ℚ))
    (loudness duration vol_drop vol_start : ℚ) (hne : measure ≠ []) :
    analyze path measure loudness duration vol_drop vol_start =
      Except.ok (analyzeResult path measure loudness duration vol_drop vol_start) := by
  rw [analyze, if_neg hne]

theorem analyzeResult_start_next (path : String) (measure : List (ℚ × ℚ))
    (loudness duration vol_drop vol_start : ℚ) :
    (analyzeResult path measure loudness duration vol_drop vol_start).start_next =
      max (duration -
        (if duration - first_time_threshold measure (loudness - vol_drop) true > 15 then
          first_time_threshold measure (loudness - vol_drop - 15) true
        else first_time_threshold measure (loudness - vol_drop) true)) 0 := rfl

theorem analyzeResult_cue_point (path : String) (measure : List (ℚ × ℚ))
    (loudness duration vol_drop vol_start : ℚ) :
    (analyzeResult path measure loudness duration vol_drop vol_start).cue_point =
      max 0 (first_time_threshold measure (loudness - vol_start) false - 2/5) := rfl

theorem analyzeResult_duration (path : String) (measure : List (ℚ × ℚ))
    (loudness duration vol_drop vol_start : ℚ) :
    (analyzeResult path measure loudness duration vol_drop vol_start).duration = duration := rfl

theorem analyzeResult_loudness (path : String) (measure : List (ℚ × ℚ))
    (loudness duration vol_drop vol_start : ℚ) :
    (analyzeResult path measure loudness duration vol_drop vol_start).loudness = loudness := rfl

theorem analyzeResult_path (path : String) (measure : List (ℚ × ℚ))
    (loudness duration vol_drop vol_start : ℚ) :
    (analyzeResult path measure loudness duration vol_drop vol_start).path = path := rfl

-- Scan lemmas.

theorem find?_append_of_forall_not {α : Type} (p : α → Bool) (l1 l2 : List α) (s : α)
    (h1 : ∀ x ∈ l1, p x = false) (hs : p s = true) :
    (l1 ++ s :: l2).find? p = some s := by
  induction l1 with
  | nil => simpa using List.find?_cons_of_pos l2 hs
  | cons a l ih =>
    have ha : p a = false := h1 a (by simp)
    rw [List.cons_append, List.find?_cons_of_neg _ (by simp [ha])]
    exact ih (fun x hx => h1 x (by simp [hx]))

theorem ftt_eq_zero (measure : List (ℚ × ℚ)) (t : ℚ) (r : Bool)
    (h : ∀ x ∈ measure, x.2 ≤ t) :
    first_time_threshold measure t r = 0 := by
  have hnone : (if r then measure.reverse else measure).find?
      (fun item => decide (t < item.2)) = none := by
    refine List.find?_eq_none.2 (fun x hx => ?_)
    have hxm : x ∈ measure := by cases r <;> simpa using hx
    simpa using not_lt.2 (h x hxm)
  simp only [first_time_threshold, hnone]

theorem ftt_cases (measure : List (ℚ × ℚ)) (t : ℚ) (r : Bool) :
    first_time_threshold measure t r = 0 ∨
      ∃ s ∈ measure, first_time_threshold measure t r = s.1 ∧ t < s.2 := by
  simp only [first_time_threshold]
  cases hf : (if r then measure.reverse else measure).find?
      (fun item => decide (t < item.2)) with
  | none => left; rfl
  | some s =>
    right
    refine ⟨s, ?_, rfl, ?_⟩
    · have hmem := List.mem_of_find?_eq_some hf
      cases r <;> simpa using hmem
    · simpa using List.find?_some hf

theorem ftt_nonneg (measure : List (ℚ × ℚ)) (t : ℚ) (r : Bool)
    (h : ∀ x ∈ measure, 0 ≤ x.1) :
    0 ≤ first_time_threshold measure t r := by
  rcases ftt_cases measure t r with h0 | ⟨s, hm, he, -⟩
  · rw [h0]
  · rw [he]; exact h s hm

theorem ftt_le (measure : List (ℚ × ℚ)) (t : ℚ) (r : Bool) (d : ℚ) (hd : 0 ≤ d)
    (h : ∀ x ∈ measure, x.1 ≤ d) :
    first_time_threshold measure t r ≤ d := by
  rcases ftt_cases measure t r with h0 | ⟨s, hm, he, -⟩
  · rw [h0]; exact hd
  · rw [he]; exact h s hm

theorem ftt_forward_first (l1 l2 : List (ℚ × ℚ)) (s : ℚ × ℚ) (t : ℚ)
    (h1 : ∀ x ∈ l1, x.2 ≤ t) (hs : t < s.2) :
    first_time_threshold (l1 ++ s :: l2) t false = s.1 := by
  simp only [first_time_threshold, Bool.false_eq_true, if_false]
  rw [find?_append_of_forall_not _ l1 l2 s
    (fun x hx => by simpa using not_lt.2 (h1 x hx)) (by simpa using hs)]

theorem ftt_backward_last (l1 l2 : List (ℚ × ℚ)) (s : ℚ × ℚ) (t : ℚ)
    (hs : t < s.2) (h2 : ∀ x ∈ l2, x.2 ≤ t) :
    first_time_threshold (l1 ++ s :: l2) t true = s.1 := by
  simp only [first_time_threshold, if_true]
  have hrev : (l1 ++ s :: l2).reverse = l2.reverse ++ s :: l1.reverse := by
    simp [List.reverse_append]
  rw [hrev, find?_append_of_forall_not _ l2.reverse l1.reverse s
    (fun x hx => by simpa using not_lt.2 (h2 x (List.mem_reverse.1 hx)))
    (by simpa using hs)]

theorem find?_desc_mono (l : List (ℚ × ℚ)) (t1 t2 : ℚ) (h12 : t1 ≤ t2)
    (hsort : l.Pairwise (fun a b => b.1 ≤ a.1)) (a : ℚ × ℚ)
    (ha : l.find? (fun item => decide (t2 < item.2)) = some a) :
    ∃ b, l.find? (fun item => decide (t1 < item.2)) = some b ∧ a.1 ≤ b.1 := by
  induction l with
  | nil => simp at ha
  | cons h tl ih =>
    rw [List.pairwise_cons] at hsort
    by_cases h1 : t1 < h.2
    · refine ⟨h, List.find?_cons_of_pos _ (by simpa using h1), ?_⟩
      by_cases h2 : t2 < h.2
      · rw [List.find?_cons_of_pos _ (by simpa using h2)] at ha
        injection ha with ha
        rw [← ha]
      · rw [List.find?_cons_of_neg _ (by simpa using h2)] at ha
        exact hsort.1 a (List.mem_of_find?_eq_some ha)
    · have h2 : ¬ t2 < h.2 := fun hlt => h1 (lt_of_le_of_lt h12 hlt)
      rw [List.find?_cons_of_neg _ (by simpa using h2)] at ha
      rw [List.find?_cons_of_neg _ (by simpa using h1)]
      exact ih hsort.2 ha

theorem ftt_backward_mono (measure : List (ℚ × ℚ)) (t1 t2 : ℚ) (h12 : t1 ≤ t2)
    (hsort : measure.Pairwise (fun a b => a.1 ≤ b.1))
    (hex : ∃ s ∈ measure, t2 < s.2) :
    first_time_threshold measure t2 true ≤ first_time_threshold measure t1 true := by
  obtain ⟨s, hsm, hs⟩ := hex
  have hrev : measure.reverse.Pairwise (fun a b => b.1 ≤ a.1) := by
    rw [List.pairwise_reverse]
    exact hsort
  cases hf : measure.reverse.find? (fun item => decide (t2 < item.2)) with
  | none =>
    have := List.find?_eq_none.1 hf s (List.mem_reverse.2 hsm)
    simp at this
    exact absurd hs (not_lt.2 this)
  | some a =>
    obtain ⟨b, hb, hab⟩ := find?_desc_mono measure.reverse t1 t2 h12 hrev a hf
    simp only [first_time_threshold, if_true]
    rw [hf, hb]
    exact hab

-- Concrete profiles used by the witnesses. sampleMeasure has integrated
-- loudness -14 and duration 180 in mind: with the default thresholds the
-- primary backward scan lands at t = 1 and the 179 s tail forces the
-- long-tail correction, which lands at t = 179. quietMeasure never exceeds
-- either threshold.

def sampleMeasure : List (ℚ × ℚ) := [(0, -60), (1, -15), (2, -25), (179, -30), (180, -50)]

def quietMeasure : List (ℚ × ℚ) := [(1, -80), (2, -70)]

-- Arithmetic evaluation facts used by the witnesses (rational arithmetic
-- does not reduce in the kernel, so these are established once here).

theorem qeval_drop : (-14 : ℚ) - 8 = -22 := by norm_num

theorem qeval_drop15 : (-14 : ℚ) - 8 - 15 = -37 := by norm_num

theorem qeval_cue : (-14 : ℚ) - 40 = -54 := by norm_num

theorem qeval_fire : (180 : ℚ) - 1 > 15 := by norm_num

theorem qeval_fire0 : (180 : ℚ) - 0 > 15 := by norm_num

theorem qeval_startnext : max ((180 : ℚ) - 179) 0 = 1 := by norm_num

theorem qeval_cuept : max (0 : ℚ) (1 - 2/5) = 3/5 := by norm_num

theorem qeval_duration : max ((180 : ℚ) - 0) 0 = 180 := by norm_num

-- Claim theorems.

/-- Claim C1: for every sample sequence and threshold, the threshold-scan
primitive returns, scanning forward, the timestamp of the first sample whose
momentary loudness strictly exceeds the threshold; scanning backward, the
timestamp of the last such sample (the first one met from the end); and 0 in
either direction when no sample strictly exceeds the threshold. A sample
whose loudness is exactly equal to the threshold never counts as crossing
(the no-crossing and first/last decompositions below only require x.2 ≤ t of
the non-crossing samples). -/
theorem first_time_threshold_spec (measure : List (ℚ × ℚ)) (t : ℚ) :
    ((∀ x ∈ measure, x.2 ≤ t) →
      first_time_threshold measure t false = 0 ∧ first_time_threshold measure t true = 0) ∧
    (∀ l1 (s : ℚ × ℚ) l2, measure = l1 ++ s :: l2 → (∀ x ∈ l1, x.2 ≤ t) → t < s.2 →
      first_time_threshold measure t false = s.1) ∧
    (∀ l1 (s : ℚ × ℚ) l2, measure = l1 ++ s :: l2 → t < s.2 → (∀ x ∈ l2, x.2 ≤ t) →
      first_time_threshold measure t true = s.1) := by
  refine ⟨fun h => ⟨ftt_eq_zero _ _ _ h, ftt_eq_zero _ _ _ h⟩, ?_, ?_⟩
  · rintro l1 s l2 rfl h1 hs
    exact ftt_forward_first l1 l2 s t h1 hs
  · rintro l1 s l2 rfl hs h2
    exact ftt_backward_last l1 l2 s t hs h2

theorem first_time_threshold_spec_witness :
    first_time_threshold sampleMeasure (-20) false = 1 ∧
    first_time_threshold sampleMeasure (-28) true = 2 ∧
    first_time_threshold sampleMeasure (-5) false = 0 ∧
    first_time_threshold sampleMeasure (-5) true = 0 := by
  refine ⟨?_, ?_, ?_, ?_⟩
  · exact (first_time_threshold_spec sampleMeasure (-20)).2.1
      [(0, -60)] (1, -15) [(2, -25), (179, -30), (180, -50)] rfl (by decide) (by decide)
  · exact (first_time_threshold_spec sampleMeasure (-28)).2.2
      [(0, -60), (1, -15)] (2, -25) [(179, -30), (180, -50)] rfl (by decide) (by decide)
  · exact ((first_time_threshold_spec sampleMeasure (-5)).1 (by decide)).1
  · exact ((first_time_threshold_spec sampleMeasure (-5)).1 (by decide)).2

/-- Claim C2: for every non-empty profile the analyzer re-scans with the
threshold lowered by exactly 15 LU (loudness - vol_drop - 15) and uses that
re-scan as the final drop time exactly when duration - T_drop is strictly
greater than 15 seconds; a tail of exactly 15 does not trigger the
correction, and the corrected value is final (it is not re-checked against
the 15-second condition). -/
theorem analyze_long_tail_correction (path : String) (measure : List (ℚ × ℚ))
    (loudness duration vol_drop vol_start : ℚ) (hne : measure ≠ []) :
    analyze path measure loudness duration vol_drop vol_start =
      Except.ok (analyzeResult path measure loudness duration vol_drop vol_start) ∧
    (duration - first_time_threshold measure (loudness - vol_drop) true > 15 →
      (analyzeResult path measure loudness duration vol_drop vol_start).start_next =
        max (duration - first_time_threshold measure (loudness - vol_drop - 15) true) 0) ∧
    (duration - first_time_threshold measure (loudness - vol_drop) true ≤ 15 →
      (analyzeResult path measure loudness duration vol_drop vol_start).start_next =
        max (duration - first_time_threshold measure (loudness - vol_drop) true) 0) := by
  refine ⟨analyze_ok path measure loudness duration vol_drop vol_start hne, ?_, ?_⟩
  · intro h
    rw [analyzeResult_start_next, if_pos h]
  · intro h
    rw [analyzeResult_start_next, if_neg (not_lt.2 h)]

theorem analyze_long_tail_correction_witness :
    analyze "track.mp3" sampleMeasure (-14) 180 8 40 =
      Except.ok (analyzeResult "track.mp3" sampleMeasure (-14) 180 8 40) ∧
    (analyzeResult "track.mp3" sampleMeasure (-14) 180 8 40).start_next = 1 := by
  obtain ⟨hok, hfire, -⟩ :=
    analyze_long_tail_correction "track.mp3" sampleMeasure (-14) 180 8 40 (by decide)
  refine ⟨hok, ?_⟩
  have hT : first_time_threshold sampleMeasure ((-14) - 8) true = 1 := by
    rw [qeval_drop]; rfl
  have hT2 : first_time_threshold sampleMeasure ((-14) - 8 - 15) true = 179 := by
    rw [qeval_drop15]; rfl
  rw [hfire (by rw [hT]; exact qeval_fire), hT2, qeval_startnext]

/-- Claim C3: for every non-empty profile and start threshold the returned
cue_point equals max(0, T_cue_raw - 0.4) where T_cue_raw is the forward scan
at loudness - vol_start; hence cue_point is nonnegative, and whenever
T_cue_raw < 0.4 (in particular when the scan returns 0 because nothing
crosses) the cue_point is exactly 0. -/
theorem analyze_cue_point_spec (path : String) (measure : List (ℚ × ℚ))
    (loudness duration vol_drop vol_start : ℚ) (hne : measure ≠ []) :
    analyze path measure loudness duration vol_drop vol_start =
      Except.ok (analyzeResult path measure loudness duration vol_drop vol_start) ∧
    (analyzeResult path measure loudness duration vol_drop vol_start).cue_point =
      max 0 (first_time_threshold measure (loudness - vol_start) false - 2/5) ∧
    0 ≤ (analyzeResult path measure loudness duration vol_drop vol_start).cue_point ∧
    (first_time_threshold measure (loudness - vol_start) false < 2/5 →
      (analyzeResult path measure loudness duration vol_drop vol_start).cue_point = 0) := by
  refine ⟨analyze_ok path measure loudness duration vol_drop vol_start hne,
    analyzeResult_cue_point path measure loudness duration vol_drop vol_start,
    le_max_left _ _, fun h => ?_⟩
  rw [analyzeResult_cue_point]
  exact max_eq_left (sub_nonpos.2 (le_of_lt h))

theorem analyze_cue_point_spec_witness :
    analyze "track.mp3" sampleMeasure (-14) 180 8 40 =
      Except.ok (analyzeResult "track.mp3" sampleMeasure (-14) 180 8 40) ∧
    (analyzeResult "track.mp3" sampleMeasure (-14) 180 8 40).cue_point = 3/5 := by
  obtain ⟨hok, hcue, -, -⟩ :=
    analyze_cue_point_spec "track.mp3" sampleMeasure (-14) 180 8 40 (by decide)
  refine ⟨hok, ?_⟩
  have hT : first_time_threshold sampleMeasure ((-14) - 40) false = 1 := by
    rw [qeval_cue]; rfl
  rw [hcue, hT, qeval_cuept]

/-- Claim C4: for every non-empty profile the returned start_next equals
max(0, duration - T_drop) where T_drop is the final, possibly corrected,
backward-scan timestamp; and when no sample exceeds the final threshold the
scan returns 0 and start_next is the full duration (duration being
nonnegative). -/
theorem analyze_start_next_spec (path : String) (measure : List (ℚ × ℚ))
    (loudness duration vol_drop vol_start : ℚ) (hne : measure ≠ []) :
    analyze path measure loudness duration vol_drop vol_start =
      Except.ok (analyzeResult path measure loudness duration vol_drop vol_start) ∧
    (analyzeResult path measure loudness duration vol_drop vol_start).start_next =
      max (duration - first_time_threshold measure
        (if duration - first_time_threshold measure (loudness - vol_drop) true > 15 then
          loudness - vol_drop - 15
        else loudness - vol_drop) true) 0 ∧
    ((∀ s ∈ measure, s.2 ≤
        (if duration - first_time_threshold measure (loudness - vol_drop) true > 15 then
          loudness - vol_drop - 15
        else loudness - vol_drop)) → 0 ≤ duration →
      (analyzeResult path measure loudness duration vol_drop vol_start).start_next = duration) := by
  have key : first_time_threshold measure
      (if duration - first_time_threshold measure (loudness - vol_drop) true > 15 then
        loudness - vol_drop - 15
      else loudness - vol_drop) true =
      (if duration - first_time_threshold measure (loudness - vol_drop) true > 15 then
        first_time_threshold measure (loudness - vol_drop - 15) true
      else first_time_threshold measure (loudness - vol_drop) true) := by
    by_cases h : duration - first_time_threshold measure (loudness - vol_drop) true > 15
    · rw [if_pos h, if_pos h]
    · rw [if_neg h, if_neg h]
  refine ⟨analyze_ok path measure loudness duration vol_drop vol_start hne, ?_, ?_⟩
  · rw [analyzeResult_start_next, key]
  · intro hall hd
    rw [analyzeResult_start_next, ← key, ftt_eq_zero _ _ _ hall, sub_zero]
    exact max_eq_left hd

theorem analyze_start_next_spec_witness :
    analyze "quiet.mp3" quietMeasure (-14) 180 8 40 =
      Except.ok (analyzeResult "quiet.mp3" quietMeasure (-14) 180 8 40) ∧
    (analyzeResult "quiet.mp3" quietMeasure (-14) 180 8 40).start_next = 180 := by
  obtain ⟨hok, -, hfull⟩ :=
    analyze_start_next_spec "quiet.mp3" quietMeasure (-14) 180 8 40 (by decide)
  refine ⟨hok, ?_⟩
  have hT : first_time_threshold quietMeasure ((-14) - 8) true = 0 := by
    rw [qeval_drop]; rfl
  have hc : (180 : ℚ) - first_time_threshold quietMeasure ((-14) - 8) true > 15 := by
    rw [hT]; exact qeval_fire0
  refine hfull ?_ (by decide)
  rw [if_pos hc, qeval_drop15]
  decide

/-- Claim C5: for every non-empty profile whose sample timestamps all lie in
[0, duration], with duration nonnegative, the analyzer output satisfies
0 ≤ cue_point ≤ duration and 0 ≤ start_next ≤ duration. -/
theorem analyze_output_bounds (path : String) (measure : List (ℚ × ℚ))
    (loudness duration vol_drop vol_start : ℚ) (hne : measure ≠ [])
    (hdur : 0 ≤ duration) (hbound : ∀ s ∈ measure, 0 ≤ s.1 ∧ s.1 ≤ duration) :
    analyze path measure loudness duration vol_drop vol_start =
      Except.ok (analyzeResult path measure loudness duration vol_drop vol_start) ∧
    0 ≤ (analyzeResult path measure loudness duration vol_drop vol_start).cue_point ∧
    (analyzeResult path measure loudness duration vol_drop vol_start).cue_point ≤ duration ∧
    0 ≤ (analyzeResult path measure loudness duration vol_drop vol_start).start_next ∧
    (analyzeResult path measure loudness duration vol_drop vol_start).start_next ≤ duration := by
  refine ⟨analyze_ok path measure loudness duration vol_drop vol_start hne, ?_, ?_, ?_, ?_⟩
  · rw [analyzeResult_cue_point]
    exact le_max_left _ _
  · rw [analyzeResult_cue_point]
    refine max_le hdur ?_
    have hTd : first_time_threshold measure (loudness - vol_start) false ≤ duration :=
      ftt_le measure _ false duration hdur (fun s hs => (hbound s hs).2)
    have h25 : (0 : ℚ) ≤ 2/5 := by norm_num
    linarith
  · rw [analyzeResult_start_next]
    exact le_max_right _ _
  · rw [analyzeResult_start_next]
    refine max_le ?_ hdur
    have hA : 0 ≤ first_time_threshold measure (loudness - vol_drop - 15) true :=
      ftt_nonneg measure _ true (fun s hs => (hbound s hs).1)
    have hB : 0 ≤ first_time_threshold measure (loudness - vol_drop) true :=
      ftt_nonneg measure _ true (fun s hs => (hbound s hs).1)
    by_cases h : duration - first_time_threshold measure (loudness - vol_drop) true > 15
    · rw [if_pos h]; linarith
    · rw [if_neg h]; linarith

theorem analyze_output_bounds_witness :
    analyze "track.mp3" sampleMeasure (-14) 180 8 40 =
      Except.ok (analyzeResult "track.mp3" sampleMeasure (-14) 180 8 40) ∧
    0 ≤ (analyzeResult "track.mp3" sampleMeasure (-14) 180 8 40).cue_point ∧
    (analyzeResult "track.mp3" sampleMeasure (-14) 180 8 40).cue_point ≤ 180 ∧
    0 ≤ (analyzeResult "track.mp3" sampleMeasure (-14) 180 8 40).start_next ∧
    (analyzeResult "track.mp3" sampleMeasure (-14) 180 8 40).start_next ≤ 180 :=
  analyze_output_bounds "track.mp3" sampleMeasure (-14) 180 8 40
    (by decide) (by decide) (by decide)

/-- Claim C6: the spec says a line exactly equal to the playlist header
marker "#EXTM3U" (with or without a trailing newline artifact) is dropped
and that only non-empty lines are kept. The code compares each line against
the literal "#EXTM3U\x7bnewline\x7d", but BufRead lines never yields a string
containing a newline, so the comparison is dead: the header line and empty
lines are all kept. This theorem evaluates the embedded filter on the
failing input, showing the header and an empty line surviving. -/
theorem playlist_header_kept :
    playlist_lines ["#EXTM3U", "track1.mp3", "", "track2.mp3"] =
      ["#EXTM3U", "track1.mp3", "", "track2.mp3"] := by decide

/-- The comparison in the playlist filter is dead code: on any list of
newline-free lines (which is what BufRead lines produces) the filter keeps
everything. -/
theorem playlist_lines_id_of_no_newline (ls : List String)
    (h : ∀ s ∈ ls, Char.ofNat 10 ∉ s.data) : playlist_lines ls = ls := by
  rw [playlist_lines, List.filter_eq_self]
  intro s hs
  have hne : s ≠ "#EXTM3U\n" := by
    intro he
    exact h s hs (by rw [he]; decide)
  simpa using hne

-- Concrete evaluations of the fixed-point formatter.

theorem round_cue_val : round ((1234567 : ℚ) / 1000000 * 1000) = 1235 := by
  rw [round_eq, Int.floor_eq_iff]
  norm_num

theorem round_179 : round ((179 : ℚ) * 1000) = 179000 := by
  rw [round_eq, Int.floor_eq_iff]
  norm_num

theorem round_180 : round ((180 : ℚ) * 1000) = 180000 := by
  rw [round_eq, Int.floor_eq_iff]
  norm_num

theorem round_gain : round (((-23 : ℚ) - (-14)) * 1000) = -9000 := by
  rw [round_eq, Int.floor_eq_iff]
  norm_num

theorem fmt3_cue_val : fmt3 ((1234567 : ℚ) / 1000000) = "1.235" := by
  simp only [fmt3, round_cue_val]
  rfl

theorem fmt3_179 : fmt3 (179 : ℚ) = "179.000" := by
  simp only [fmt3, round_179]
  rfl

theorem fmt3_180 : fmt3 (180 : ℚ) = "180.000" := by
  simp only [fmt3, round_180]
  rfl

theorem fmt3_gain : fmt3 ((-23 : ℚ) - (-14)) = "-9.000" := by
  simp only [fmt3, round_gain]
  rfl

/-- Claim C7: every emitted line is exactly the annotate line with the four
numeric fields rendered to three decimal digits and gain = -23.0 minus the
integrated loudness, the rendering rounds (1.234567 prints as 1.235), and the
playlist header line is written first exactly when not appending. The last
conjunct evaluates a full line on the profile of the worked example. -/
theorem output_line_format :
    (∀ r : AnalyzeResult, annotateLine r =
      "annotate:liq_cue_in=\"" ++ fmt3 r.cue_point ++ "\",liq_cross_duration=\"" ++
        fmt3 r.start_next ++ "\",duration=\"" ++ fmt3 r.duration ++ "\",liq_amplify=\"" ++
        fmt3 (-23 - r.loudness) ++ "dB\":" ++ r.path ++ "\n") ∧
    (∀ results : List AnalyzeResult, resultString false results =
      "#EXTM3U\n" ++ String.join (results.map annotateLine)) ∧
    (∀ results : List AnalyzeResult, resultString true results =
      String.join (results.map annotateLine)) ∧
    fmt3 ((1234567 : ℚ) / 1000000) = "1.235" ∧
    annotateLine ⟨179, (1234567 : ℚ) / 1000000, 180, -14, "track.mp3"⟩ =
      "annotate:liq_cue_in=\"1.235\",liq_cross_duration=\"179.000\",duration=\"180.000\",liq_amplify=\"-9.000dB\":track.mp3\n" := by
  refine ⟨fun r => rfl, fun results => rfl, fun results => rfl, fmt3_cue_val, ?_⟩
  simp only [annotateLine, fmt3_cue_val, fmt3_179, fmt3_180, fmt3_gain]
  rfl

/-- Claim C8: an empty parsed sample sequence makes the analysis of that
track fail fatally, naming the offending path, before any threshold scan is
attempted; for every non-empty sample sequence the failure branch is
unreachable and the analysis succeeds. -/
theorem analyze_empty_measure_fatal (path : String) (measure : List (ℚ × ℚ))
    (loudness duration vol_drop vol_start : ℚ) :
    (measure = [] →
      analyze path measure loudness duration vol_drop vol_start =
        Except.error ("Couldn\x27t measure filename: " ++ path)) ∧
    (measure ≠ [] →
      analyze path measure loudness duration vol_drop vol_start =
        Except.ok (analyzeResult path measure loudness duration vol_drop vol_start)) := by
  constructor
  · rintro rfl
    rw [analyze, if_pos rfl]
  · exact analyze_ok path measure loudness duration vol_drop vol_start

theorem analyze_empty_measure_fatal_witness :
    analyze "bad.mp3" [] (-14) 180 8 40 =
      Except.error ("Couldn\x27t measure filename: " ++ "bad.mp3") ∧
    analyze "track.mp3" sampleMeasure (-14) 180 8 40 =
      Except.ok (analyzeResult "track.mp3" sampleMeasure (-14) 180 8 40) :=
  ⟨(analyze_empty_measure_fatal "bad.mp3" [] (-14) 180 8 40).1 rfl,
   (analyze_empty_measure_fatal "track.mp3" sampleMeasure (-14) 180 8 40).2 (by decide)⟩

/-- Claim C9: the analyzer is deterministic: equal profiles and thresholds
produce equal results, and the profile data is passed through unmodified
(the returned duration, integrated loudness and path are the inputs). The
embedding is a pure function of its arguments, matching the absence of any
hidden state in the Rust analyze function. -/
theorem analyze_deterministic (path path2 : String) (measure measure2 : List (ℚ × ℚ))
    (loudness loudness2 duration duration2 vol_drop vol_drop2 vol_start vol_start2 : ℚ)
    (hp : path = path2) (hm : measure = measure2) (hl : loudness = loudness2)
    (hd : duration = duration2) (hv : vol_drop = vol_drop2) (hs : vol_start = vol_start2) :
    analyze path measure loudness duration vol_drop vol_start =
      analyze path2 measure2 loudness2 duration2 vol_drop2 vol_start2 ∧
    (analyzeResult path measure loudness duration vol_drop vol_start).duration = duration ∧
    (analyzeResult path measure loudness duration vol_drop vol_start).loudness = loudness ∧
    (analyzeResult path measure loudness duration vol_drop vol_start).path = path := by
  subst hp hm hl hd hv hs
  exact ⟨rfl, rfl, rfl, rfl⟩

theorem analyze_deterministic_witness :
    analyze "track.mp3" sampleMeasure (-14) 180 8 40 =
      analyze "track.mp3" sampleMeasure (-14) 180 8 40 ∧
    (analyzeResult "track.mp3" sampleMeasure (-14) 180 8 40).duration = 180 ∧
    (analyzeResult "track.mp3" sampleMeasure (-14) 180 8 40).loudness = -14 ∧
    (analyzeResult "track.mp3" sampleMeasure (-14) 180 8 40).path = "track.mp3" :=
  analyze_deterministic "track.mp3" "track.mp3" sampleMeasure sampleMeasure
    (-14) (-14) 180 180 8 8 40 40 rfl rfl rfl rfl rfl rfl

/-- Claim C10: on a sample sequence with non-decreasing timestamps, when some
sample strictly exceeds the higher threshold t2, the backward scan at a
lower threshold t1 lands at a timestamp at least as late as the scan at t2;
consequently when the long-tail correction fires (with t2 the primary level
and t1 the level lowered by 15) the corrected start_next never exceeds the
uncorrected one. -/
theorem backward_scan_monotone (measure : List (ℚ × ℚ)) (t1 t2 : ℚ)
    (hsort : measure.Pairwise (fun a b => a.1 ≤ b.1)) (h12 : t1 ≤ t2)
    (hex : ∃ s ∈ measure, t2 < s.2) :
    first_time_threshold measure t2 true ≤ first_time_threshold measure t1 true ∧
    (∀ path loudness duration vol_drop vol_start,
      t2 = loudness - vol_drop → t1 = loudness - vol_drop - 15 →
      duration - first_time_threshold measure (loudness - vol_drop) true > 15 →
      (analyzeResult path measure loudness duration vol_drop vol_start).start_next ≤
        max (duration - first_time_threshold measure (loudness - vol_drop) true) 0) := by
  have hmono := ftt_backward_mono measure t1 t2 h12 hsort hex
  refine ⟨hmono, ?_⟩
  intro path loudness duration vol_drop vol_start ht2 ht1 hfire
  rw [ht2] at hmono
  rw [ht1] at hmono
  rw [analyzeResult_start_next, if_pos hfire]
  exact max_le_max (sub_le_sub_left hmono duration) le_rfl

theorem backward_scan_monotone_witness :
    first_time_threshold sampleMeasure (-22) true ≤
      first_time_threshold sampleMeasure (-37) true ∧
    (analyzeResult "track.mp3" sampleMeasure (-14) 180 8 40).start_next ≤
      max ((180 : ℚ) - first_time_threshold sampleMeasure ((-14) - 8) true) 0 := by
  obtain ⟨h1, h2⟩ := backward_scan_monotone sampleMeasure (-37) (-22)
    (by decide) (by decide) (by decide)
  refine ⟨h1, h2 "track.mp3" (-14) 180 8 40 qeval_drop.symm qeval_drop15.symm ?_⟩
  have hT : first_time_threshold sampleMeasure ((-14) - 8) true = 1 := by
    rw [qeval_drop]; rfl
  rw [hT]
  exact qeval_fire
